import Mathlib

/-!
# Verification of the `log` package (FollowTheProcess/log)

A shallow embedding of the leveled command-line logger: the `Level` type and
its rendering, the quoting rules for attribute values, the emit path with its
fast-reject gate, the buffer pool, the derivation operations (`With`,
`Prefixed`, `clone`), and context binding (`WithContext` / `FromContext`).

External collaborators (the `hue` styling package, the Go standard library's
`unicode`, `strconv`, `time`, `sync` and `log/slog` packages) are modelled at
their interface boundary; each such model is marked in its doc comment.
Everything else is translated directly from the Go source.
-/

/-! ## Levels (source: `level.go`) -/

/-- `Level` is a log level (Go: `type Level int`). -/
abbrev Level := Int

/-- `LevelDebug Level = -4`. -/
def LevelDebug : Level := -4

/-- `LevelInfo Level = 0`. -/
def LevelInfo : Level := 0

/-- `LevelWarn Level = 4`. -/
def LevelWarn : Level := 4

/-- `LevelError Level = 8`. -/
def LevelError : Level := 8

/-- Go constant `debugString`. -/
def debugString : String := "DEBUG"

/-- Go constant `infoString`. -/
def infoString : String := "INFO"

/-- Go constant `warnString`. -/
def warnString : String := "WARN"

/-- Go constant `errorString`. -/
def errorString : String := "ERROR"

/-! ## Styling (external collaborator: the `hue` package)

The semantic styles of `log.go` are opaque identifiers here; their numeric
encodings live in the external `hue` package and never influence control flow
in this repository. -/

/-- Style identity for `timestampStyle = hue.Dim`. -/
def timestampStyle : Nat := 0

/-- Style identity for `prefixStyle = hue.Dim | hue.Bold` (field renamed,
see `Logger`). -/
def pfxStyle : Nat := 1

/-- Style identity for `keyStyle = hue.Magenta`. -/
def keyStyle : Nat := 2

/-- Style identity for `debugStyle = hue.Blue | hue.Bold`. -/
def debugStyle : Nat := 3

/-- Style identity for `infoStyle = hue.Cyan | hue.Bold`. -/
def infoStyle : Nat := 4

/-- Style identity for `warnStyle = hue.Yellow | hue.Bold`. -/
def warnStyle : Nat := 5

/-- Style identity for `errorStyle = hue.Red | hue.Bold`. -/
def errorStyle : Nat := 6

/-- Model of the external `hue` styling capability `style.Text(s)` with
styling disabled (`hue.Enabled(false)`, as in the repository's deterministic
tests): the text is returned unmodified.  The spec fixes the line format only
"modulo styling codes". -/
def hueText (_style : Nat) (s : String) : String := s

/-- `Level.String` (source: `level.go`): the stylised representation of the
log level; an unrecognised numeric value renders as `"unknown"`. -/
def Level.String (l : Level) : String :=
  if l = LevelDebug then hueText debugStyle debugString
  else if l = LevelInfo then hueText infoStyle infoString
  else if l = LevelWarn then hueText warnStyle warnString
  else if l = LevelError then hueText errorStyle errorString
  else "unknown"

/-! ## Character classification and quoting

`needsQuotes` is translated from `log.go`; the character classifiers it calls
live in the Go standard library (`unicode`, `unicode/utf8`, `strconv`) and are
modelled at their boundary. -/

/-- `utf8.RuneError` (external standard library): U+FFFD.  In Go, ranging over
a string yields this rune for every undecodable byte sequence; Lean strings
are always valid Unicode, so it appears here only as a literal code point. -/
def runeError : Char := Char.ofNat 0xFFFD

/-- Exact embedding of Go `unicode.IsSpace` (external standard library): the
Unicode White_Space code points, which form this fixed finite set. -/
def unicode_IsSpace (c : Char) : Bool :=
  (9 ≤ c.toNat && c.toNat ≤ 13) || c.toNat = 32 || c.toNat = 0x85 || c.toNat = 0xA0
    || c.toNat = 0x1680 || (0x2000 ≤ c.toNat && c.toNat ≤ 0x200A)
    || c.toNat = 0x2028 || c.toNat = 0x2029 || c.toNat = 0x202F
    || c.toNat = 0x205F || c.toNat = 0x3000

/-- `needsQuotes` (source: `log.go`): whether `s` should be displayed quoted.
Go calls `unicode.IsPrint`, whose full Unicode tables live in the external
standard library; the classifier is therefore threaded as the explicit
parameter `isPrint`. -/
def needsQuotes (isPrint : Char → Bool) (s : String) : Bool :=
  s.data.any fun c => c == runeError || unicode_IsSpace c || !(isPrint c)

/-- An `isPrint` instance for witnesses: printable ASCII. -/
def asciiIsPrint (c : Char) : Bool := 0x20 ≤ c.toNat && c.toNat ≤ 0x7E

/-- Escape one character, model of the per-rune step of Go `strconv.Quote`
(external standard library): quote, backslash, tab, newline and carriage
return get their standard two-character escapes, other printable characters
are passed through, and non-printable ones get a numeric escape. -/
def quoteRune (isPrint : Char → Bool) (c : Char) : String :=
  if c = Char.ofNat 34 then "\\\""
  else if c = Char.ofNat 92 then "\\\\"
  else if c = Char.ofNat 9 then "\\t"
  else if c = Char.ofNat 10 then "\\n"
  else if c = Char.ofNat 13 then "\\r"
  else if isPrint c then String.singleton c
  else "\\u" ++ String.mk (Nat.toDigits 16 c.toNat)

/-- Model of Go `strconv.Quote` (external standard library): the escaped text
wrapped in double quotes. -/
def strconv_Quote (isPrint : Char → Bool) (s : String) : String :=
  "\"" ++ String.join (s.data.map (quoteRune isPrint)) ++ "\""

/-! ## Attributes (interface to the external `log/slog` package) -/

/-- Model of `slog.Attr` at the boundary used by `log.go`: the key, and the
value already stringified (`attr.Value.String()` is external `log/slog`
code, uniform across value kinds). -/
structure Attr where
  key : String
  value : String
deriving DecidableEq, Repr

/-- The value-rendering step of the attribute loop in `Logger.log`
(source: `log.go`): `if needsQuotes(val) || val == "" { val = strconv.Quote(val) }`. -/
def formatValue (isPrint : Char → Bool) (v : String) : String :=
  if needsQuotes isPrint v = true ∨ v = "" then strconv_Quote isPrint v else v

/-- One iteration of the attribute loop in `Logger.log` (source: `log.go`):
styled key, `=`, maybe-quoted value.  The key is never quoted. -/
def formatAttr (isPrint : Char → Bool) (a : Attr) : String :=
  hueText keyStyle a.key ++ "=" ++ formatValue isPrint a.value

/-! ## Sinks, time, and the Logger (source: `log.go`, `option.go`) -/

/-- An `io.Writer` identity.  `discard` is the designated `io.Discard` sink,
`stderr` is `os.Stderr`; `writer n` is any other writer.  Go compares writer
interface values (`w == io.Discard`), which this equality models. -/
inductive Sink where
  | discard
  | stderr
  | writer (id : Nat)
deriving DecidableEq, BEq, Repr

/-- A time instant (Go `time.Time`), abstracted to a counter value produced by
the logger's clock function. -/
abbrev Time := Nat

/-- Model of Go `time.Time.Format` (external standard library): renders the
instant according to the layout; the textual details live outside this
repository, so any injective-in-`t` rendering serves. -/
def Time.Format (t : Time) (layout : String) : String :=
  layout ++ "|" ++ toString t

/-- `time.RFC3339` (external standard library constant). -/
def time_RFC3339 : String := "2006-01-02T15:04:05Z07:00"

/-- The `Logger` struct (source: `log.go`).  `mu` is the identity of the
shared mutex (`*sync.Mutex`); `isDiscard` is the cached `w == io.Discard`
comparison (`atomic.Bool`).  The Go field `prefix` is named `pfx` here.
`attrs` holds the persistent key value pairs. -/
structure Logger where
  w : Sink
  timeFunc : Unit → Time
  mu : Nat
  timeFormat : String
  pfx : String
  attrs : List Attr
  level : Level
  isDiscard : Bool

/-- A functional option (Go `type Option func(*Logger)`; renamed to avoid the
name of Lean's core `Option`). -/
abbrev LogOption := Logger → Logger

/-- The default clock `func() time.Time { return time.Now().UTC() }`,
abstracted (the real clock lives outside the program). -/
def defaultTimeFunc : Unit → Time := fun _ => 0

/-- `New` (source: `log.go`): construct a logger with the defaults, cache the
discard comparison, then apply the options in order. -/
def New (w : Sink) (options : List LogOption) : Logger :=
  let logger : Logger :=
    { w := w
      level := LevelInfo
      timeFormat := time_RFC3339
      timeFunc := defaultTimeFunc
      mu := 0
      pfx := ""
      attrs := []
      isDiscard := w == Sink.discard }
  options.foldl (fun l o => o l) logger

/-- `WithLevel` (source: `option.go`). -/
def WithLevel (level : Level) : LogOption := fun l => { l with level := level }

/-- `TimeFormat` (source: `option.go`). -/
def TimeFormat (format : String) : LogOption := fun l => { l with timeFormat := format }

/-- `TimeFunc` (source: `option.go`). -/
def TimeFunc (fn : Unit → Time) : LogOption := fun l => { l with timeFunc := fn }

/-- `clone` (source: `log.go`): the struct literal copies `w`, `timeFunc`,
`timeFormat`, `prefix`, `level` and `mu`, and the `isDiscard` flag is stored
afterwards; the `attrs` field is absent from the literal, so it is the Go zero
value `nil`. -/
def Logger.clone (l : Logger) : Logger :=
  { w := l.w
    timeFunc := l.timeFunc
    timeFormat := l.timeFormat
    pfx := l.pfx
    level := l.level
    mu := l.mu
    attrs := []
    isDiscard := l.isDiscard }

/-- `With` (source: `log.go`): clone, then `sub.attrs = slices.Concat(sub.attrs, attrs)`. -/
def Logger.With (l : Logger) (attrs : List Attr) : Logger :=
  let sub := l.clone
  { sub with attrs := sub.attrs ++ attrs }

/-- `Prefixed` (source: `log.go`): clone, then replace the prefix. -/
def Logger.Prefixed (l : Logger) (p : String) : Logger :=
  let sub := l.clone
  { sub with pfx := p }

/-! ## The emit path (source: `log.go`) -/

/-- The observable effects of one emit call: how many pool buffers were
acquired, how many times the clock function was invoked, how many times the
shared lock was taken, and the strings written to the sink, in order. -/
structure Effects where
  buffersAcquired : Nat
  clockCalls : Nat
  lockAcquisitions : Nat
  written : List String
deriving DecidableEq, Repr

/-- No effects: the result of the fast-reject path. -/
def Effects.empty : Effects :=
  { buffersAcquired := 0, clockCalls := 0, lockAcquisitions := 0, written := [] }

/-- `log` (source: `log.go`): fast-reject when the sink is the cached discard
sink or the level is below the configured one; otherwise acquire one buffer,
call the clock once, build the line (styled timestamp, space, level label,
optional styled prefix, colon, level-dependent padding, verbatim message, the
persistent attributes followed by the call-site attributes each preceded by a
space, newline) and write it to the sink under one lock acquisition.
`isPrint` threads the external `unicode.IsPrint` classifier. -/
def Logger.log (l : Logger) (isPrint : Char → Bool) (level : Level) (msg : String)
    (attrs : List Attr) : Effects :=
  if l.isDiscard = true ∨ l.level > level then
    Effects.empty
  else
    let all := l.attrs ++ attrs
    let padding : Nat := if level = LevelDebug ∨ level = LevelError then 1 else 2
    let line :=
      hueText timestampStyle (Time.Format (l.timeFunc ()) l.timeFormat)
        ++ " "
        ++ Level.String level
        ++ (if l.pfx ≠ "" then " " ++ hueText pfxStyle l.pfx else "")
        ++ ":"
        ++ String.mk (List.replicate padding (Char.ofNat 32))
        ++ msg
        ++ (if l.attrs.length + attrs.length ≠ 0 then
              String.join (all.map fun a => " " ++ formatAttr isPrint a)
            else "")
        ++ "\n"
    { buffersAcquired := 1, clockCalls := 1, lockAcquisitions := 1, written := [line] }

/-- `Debug` (source: `log.go`). -/
def Logger.Debug (l : Logger) (isPrint : Char → Bool) (msg : String) (attrs : List Attr) : Effects :=
  l.log isPrint LevelDebug msg attrs

/-- `Info` (source: `log.go`). -/
def Logger.Info (l : Logger) (isPrint : Char → Bool) (msg : String) (attrs : List Attr) : Effects :=
  l.log isPrint LevelInfo msg attrs

/-- `Warn` (source: `log.go`). -/
def Logger.Warn (l : Logger) (isPrint : Char → Bool) (msg : String) (attrs : List Attr) : Effects :=
  l.log isPrint LevelWarn msg attrs

/-- `Error` (source: `log.go`). -/
def Logger.Error (l : Logger) (isPrint : Char → Bool) (msg : String) (attrs : List Attr) : Effects :=
  l.log isPrint LevelError msg attrs

/-! ## Buffer pool (source: `log.go`) -/

/-- A `bytes.Buffer`: its capacity and its current content.  `Reset` keeps the
capacity and empties the content. -/
structure Buffer where
  cap : Nat
  content : String
deriving DecidableEq, Repr

/-- The state of `bufPool`, a model of `sync.Pool` that retains every stored
entry, newest first.  An entry is `Option Buffer` because `sync.Pool.Put`
accepts a typed-nil `*bytes.Buffer` (its `x == nil` guard compares the
interface value, which a typed nil does not equal), stored here as `none`. -/
abbrev Pool := List (Option Buffer)

/-- `maxSize = 64 << 10` (source: `putBuffer` in `log.go`). -/
def maxSize : Nat := 64 <<< 10

/-- `putBuffer` (source: `log.go`): if the capacity exceeds `maxSize` the
local variable is set to `nil`; then `bufPool.Put(buf)` stores whatever the
variable now holds — a typed-nil pointer in the oversized case. -/
def putBuffer (pool : Pool) (buf : Buffer) : Pool :=
  let b : Option Buffer := if buf.cap > maxSize then none else some buf
  b :: pool

/-- `getBuffer` (source: `log.go`): `bufPool.Get().(*bytes.Buffer)` followed
by `buf.Reset()`.  An empty pool allocates a fresh buffer (`bufPool.New`).
When the pool hands back a stored typed-nil pointer, `Reset` dereferences a
nil receiver and the program panics — modelled as `none`. -/
def getBuffer (pool : Pool) : Option (Buffer × Pool) :=
  match pool with
  | [] => some ({ cap := 0, content := "" }, [])
  | some b :: rest => some ({ b with content := "" }, rest)
  | none :: _ => none

/-! ## Context binding (source: `log.go`) -/

/-- A `context.Context` restricted to the logger key: `background` carries no
binding; `withValue` is the context returned by `WithContext`, whose stored
`*Logger` may be a nil pointer (`none`). -/
inductive Context where
  | background
  | withValue (parent : Context) (value : Option Logger)

/-- `ctx.Value(contextKey)` as seen by `FromContext`: the innermost binding,
or `none` when no logger was ever bound. -/
def Context.loggerValue : Context → Option (Option Logger)
  | Context.background => none
  | Context.withValue _ v => some v

/-- `WithContext` (source: `log.go`): store the given `*Logger` under the
package's private key. -/
def WithContext (ctx : Context) (logger : Option Logger) : Context :=
  Context.withValue ctx logger

/-- `FromContext` (source: `log.go`): the type assertion fails when nothing is
bound, and the bound pointer may be nil; in either case a default logger
writing to `os.Stderr` is returned. -/
def FromContext (ctx : Context) : Logger :=
  match ctx.loggerValue with
  | some (some logger) => logger
  | _ => New Sink.stderr []

/-! ## The variadic key/value interface (source: `src/unnamed/part_000`)

An earlier revision of the package takes flat `kv ...any` pairs instead of
`slog.Attr`.  Elements are represented by their `fmt.Sprintf("%+v", v)`
stringification (external `fmt`). -/

/-- `missingValue` (source: `src/unnamed/part_000`): the placeholder for a
missing value in a key value pair. -/
def missingValue : String := "<MISSING>"

/-- The key/value assembly step of the kv-variant `log`
(source: `src/unnamed/part_000`, lines 165-176): append the persistent pairs,
pad with `missingValue` if the count is odd, append the call-site pairs, pad
again if the count is odd. -/
def combineKV (persistent callsite : List String) : List String :=
  let kvs := persistent
  let kvs := if kvs.length % 2 ≠ 0 then kvs ++ [missingValue] else kvs
  let kvs := kvs ++ callsite
  if kvs.length % 2 ≠ 0 then kvs ++ [missingValue] else kvs

/-- Modelled from the spec (§4.4 step 4, for comparison with `combineKV`,
which is translated from the source): "Concatenate the Logger's persistent
`attributes` with the call-site `attrs`, in that order (persistent first).
If the combined count is odd, append the missing-value marker as the final
value." -/
def combineKVSpec (persistent callsite : List String) : List String :=
  let all := persistent ++ callsite
  if all.length % 2 ≠ 0 then all ++ [missingValue] else all

/-- Pad a list with `missingValue` when its length is odd (helper for stating
what `combineKV` computes). -/
def padEven (xs : List String) : List String :=
  if xs.length % 2 ≠ 0 then xs ++ [missingValue] else xs

/-! ## Helper lemmas -/

theorem padEven_length_even (xs : List String) : (padEven xs).length % 2 = 0 := by
  unfold padEven
  split_ifs with h
  · simp only [List.length_append, List.length_cons, List.length_nil]
    omega
  · omega

theorem padEven_append_left_even (xs c : List String) (h : xs.length % 2 = 0) :
    padEven (xs ++ c) = xs ++ padEven c := by
  have hc : (xs ++ c).length % 2 = c.length % 2 := by
    simp only [List.length_append]
    omega
  unfold padEven
  rw [hc]
  split_ifs with h1
  · rw [List.append_assoc]
  · rfl

theorem combineKV_eq_padEven (p c : List String) :
    combineKV p c = padEven p ++ padEven c := by
  have h1 : combineKV p c = padEven (padEven p ++ c) := rfl
  rw [h1, padEven_append_left_even _ _ (padEven_length_even p)]

theorem needsQuotes_iff (p : Char → Bool) (s : String) :
    needsQuotes p s = true
      ↔ ∃ c ∈ s.data, c = runeError ∨ unicode_IsSpace c = true ∨ p c = false := by
  unfold needsQuotes
  rw [List.any_eq_true]
  constructor
  · rintro ⟨c, hc, hb⟩
    refine ⟨c, hc, ?_⟩
    rcases Bool.or_eq_true_iff.mp hb with hb | hb
    · rcases Bool.or_eq_true_iff.mp hb with hb | hb
      · exact Or.inl (beq_iff_eq.mp hb)
      · exact Or.inr (Or.inl hb)
    · exact Or.inr (Or.inr ((Bool.not_eq_true' _).mp hb))
  · rintro ⟨c, hc, hb⟩
    refine ⟨c, hc, ?_⟩
    rcases hb with hb | hb | hb
    · exact Bool.or_eq_true_iff.mpr (Or.inl (Bool.or_eq_true_iff.mpr (Or.inl (beq_iff_eq.mpr hb))))
    · exact Bool.or_eq_true_iff.mpr (Or.inl (Bool.or_eq_true_iff.mpr (Or.inr hb)))
    · exact Bool.or_eq_true_iff.mpr (Or.inr ((Bool.not_eq_true' _).mpr hb))

/-! ## Claim theorems -/

/-- **C1.** The claim says `With` concatenates the receiver's persistent
attributes with the supplied pairs, parent pairs first.  The code violates
this: `clone` (documented as "an exact clone") omits the `attrs` field, so a
second `With` drops the parent's pair — the derived logger holds only the
newly supplied pairs. -/
theorem with_drops_parent_attrs :
    (((New Sink.stderr []).With [Attr.mk "a" "1"]).With [Attr.mk "b" "2"]).attrs
        = [Attr.mk "b" "2"]
    ∧ (((New Sink.stderr []).With [Attr.mk "a" "1"]).attrs = [Attr.mk "a" "1"])
    ∧ ([Attr.mk "b" "2"] : List Attr) ≠ [Attr.mk "a" "1", Attr.mk "b" "2"] := by
  refine ⟨rfl, rfl, by decide⟩

/-- **C2.** The claim says `Prefixed` leaves the persistent attributes
unchanged.  The code violates this: `clone` omits the `attrs` field, so the
derivative loses the parent's persistent pair even though the prefix is
correctly replaced. -/
theorem prefixed_drops_attrs :
    ((((New Sink.stderr []).With [Attr.mk "a" "1"]).Prefixed "http").attrs = ([] : List Attr))
    ∧ (((New Sink.stderr []).With [Attr.mk "a" "1"]).attrs = [Attr.mk "a" "1"])
    ∧ ((((New Sink.stderr []).With [Attr.mk "a" "1"]).Prefixed "http").pfx = "http")
    ∧ (([] : List Attr) ≠ [Attr.mk "a" "1"]) := by
  refine ⟨rfl, rfl, rfl, by decide⟩

/-- **C6 counterexample.** With an odd persistent list `["a"]` and call-site
list `["b"]` the combined count is even, so the claim appends no marker and
pairs `a` with `b`; the code pads each list separately and produces two
markers. -/
theorem kv_combine_counterexample :
    combineKV ["a"] ["b"] = ["a", missingValue, "b", missingValue]
    ∧ combineKVSpec ["a"] ["b"] = ["a", "b"]
    ∧ combineKV ["a"] ["b"] ≠ combineKVSpec ["a"] ["b"] := by
  refine ⟨rfl, rfl, by decide⟩

/-- **C6 (amended).** The kv-variant emit path pads the persistent list with
the missing-value marker if its own count is odd, then appends the call-site
list and pads again if the count is odd — equivalently each list is padded
independently and then concatenated persistent-first.  The result always has
even length, and no supplied element is dropped: the output is the persistent
list, an optional marker, the call-site list, and an optional marker. -/
theorem kv_combine_each_list_padded (p c : List String) :
    combineKV p c = padEven p ++ padEven c
    ∧ (combineKV p c).length % 2 = 0
    ∧ ∃ pad1 pad2, combineKV p c = p ++ (pad1 ++ (c ++ pad2))
        ∧ (pad1 = [] ∨ pad1 = [missingValue])
        ∧ (pad2 = [] ∨ pad2 = [missingValue]) := by
  refine ⟨combineKV_eq_padEven p c, ?_, ?_⟩
  · rw [combineKV_eq_padEven p c]
    have h1 := padEven_length_even p
    have h2 := padEven_length_even c
    simp only [List.length_append]
    omega
  · refine ⟨if p.length % 2 ≠ 0 then [missingValue] else [],
      if c.length % 2 ≠ 0 then [missingValue] else [], ?_, ?_, ?_⟩
    · rw [combineKV_eq_padEven p c]
      unfold padEven
      split_ifs with h1 h2 h2
      · simp [List.append_assoc]
      · simp [List.append_assoc]
      · simp
      · simp
    · split_ifs with h
      · exact Or.inr rfl
      · exact Or.inl rfl
    · split_ifs with h
      · exact Or.inr rfl
      · exact Or.inl rfl

/-- **C7.** The claim says an oversized buffer is discarded rather than pooled
and every subsequent acquire succeeds.  The code violates this: setting the
local `buf = nil` does not stop `bufPool.Put(buf)` from storing a typed-nil
`*bytes.Buffer` (`sync.Pool.Put`'s interface-nil guard misses it), and a
subsequent `getBuffer` draws that nil and panics in `buf.Reset()` — modelled
by `getBuffer` returning `none`. -/
theorem oversized_release_poisons_pool :
    maxSize < 65537
    ∧ putBuffer [] (Buffer.mk 65537 "") = [none]
    ∧ getBuffer (putBuffer [] (Buffer.mk 65537 "")) = none
    ∧ putBuffer [] (Buffer.mk 10 "x") = [some (Buffer.mk 10 "x")]
    ∧ getBuffer (putBuffer [] (Buffer.mk 10 "x")) = some (Buffer.mk 10 "", []) := by
  refine ⟨by decide, by decide, by decide, by decide, by decide⟩

/-- **C8.** `FromContext` on a context with no bound logger returns a fresh
default logger writing to `os.Stderr` (never an absent value), and on a
context holding a bound (non-nil) logger it returns exactly that logger. -/
theorem from_context_default_or_bound :
    FromContext Context.background = New Sink.stderr []
    ∧ (New Sink.stderr []).w = Sink.stderr
    ∧ (New Sink.stderr []).isDiscard = false
    ∧ ∀ (ctx : Context) (l : Logger), FromContext (WithContext ctx (some l)) = l :=
  ⟨rfl, rfl, rfl, fun _ _ => rfl⟩

/-- **C10.** Binding a nil `*Logger` via `WithContext` does not leak the nil:
`FromContext` still returns the fresh default logger writing to `os.Stderr`. -/
theorem from_context_nil_binding (ctx : Context) :
    FromContext (WithContext ctx none) = New Sink.stderr []
    ∧ (New Sink.stderr []).w = Sink.stderr :=
  ⟨rfl, rfl⟩

/-- **C3.** On a non-discard sink, an emit call at attempted level `A` writes
exactly one line iff `A` is at least the configured level, nothing otherwise;
and the four defined levels are totally ordered Debug < Info < Warn < Error. -/
theorem emit_iff_level (l : Logger) (p : Char → Bool) (A : Level) (msg : String)
    (attrs : List Attr) (hnd : l.isDiscard = false) :
    ((l.log p A msg attrs).written.length = 1 ↔ l.level ≤ A)
    ∧ (A < l.level → l.log p A msg attrs = Effects.empty)
    ∧ (LevelDebug < LevelInfo ∧ LevelInfo < LevelWarn ∧ LevelWarn < LevelError) := by
  refine ⟨?_, ?_, by decide⟩
  · unfold Logger.log
    by_cases hgt : l.level > A
    · rw [if_pos (Or.inr hgt)]
      have hw : Effects.empty.written.length = 0 := rfl
      constructor
      · intro h
        rw [hw] at h
        exact absurd h (by omega)
      · intro h
        exact absurd h (not_le.mpr hgt)
    · have hcond : ¬ (l.isDiscard = true ∨ l.level > A) := by
        rintro (h | h)
        · rw [hnd] at h
          exact Bool.false_ne_true h
        · exact hgt h
      rw [if_neg hcond]
      constructor
      · intro _
        exact not_lt.mp hgt
      · intro _
        rfl
  · intro hlt
    unfold Logger.log
    rw [if_pos (Or.inr hlt)]

/-- Witness for `emit_iff_level` at a concrete logger and level. -/
theorem emit_iff_level_witness :
    ((New Sink.stderr []).log asciiIsPrint LevelInfo "hello" []).written.length = 1 :=
  (emit_iff_level (New Sink.stderr []) asciiIsPrint LevelInfo "hello" [] rfl).1.mpr
    (by decide)

/-- **C4.** The fast-reject path: when the sink is the discard sink or the
attempted level is below the configured one, the emit call acquires no
buffer, never invokes the clock, never takes the lock, and writes nothing. -/
theorem fast_reject_no_effects (l : Logger) (p : Char → Bool) (A : Level) (msg : String)
    (attrs : List Attr) (h : l.isDiscard = true ∨ A < l.level) :
    l.log p A msg attrs = Effects.empty
    ∧ (l.log p A msg attrs).buffersAcquired = 0
    ∧ (l.log p A msg attrs).clockCalls = 0
    ∧ (l.log p A msg attrs).lockAcquisitions = 0
    ∧ (l.log p A msg attrs).written = [] := by
  have he : l.log p A msg attrs = Effects.empty := by
    unfold Logger.log
    rcases h with h | h
    · rw [if_pos (Or.inl h)]
    · rw [if_pos (Or.inr h)]
  refine ⟨he, ?_, ?_, ?_, ?_⟩ <;> rw [he] <;> rfl

/-- Witness for `fast_reject_no_effects` on the discard sink. -/
theorem fast_reject_no_effects_witness :
    (New Sink.discard []).log asciiIsPrint LevelError "x" [] = Effects.empty :=
  (fast_reject_no_effects (New Sink.discard []) asciiIsPrint LevelError "x" []
    (Or.inl rfl)).1

/-- **C5.** One attribute renders as the styled key (never quoted), `=`, and
the value; the value is replaced by its quoted form — the escaped text wrapped
in double quotes — iff it is empty, or contains the replacement character
(an undecodable sequence), a whitespace character, or a non-printable
character; otherwise it is rendered verbatim. -/
theorem value_quoting_rule (p : Char → Bool) (a : Attr) :
    formatAttr p a = hueText keyStyle a.key ++ "=" ++ formatValue p a.value
    ∧ (∃ mid, strconv_Quote p a.value = "\"" ++ mid ++ "\"")
    ∧ ((a.value = "" ∨ ∃ c ∈ a.value.data,
          c = runeError ∨ unicode_IsSpace c = true ∨ p c = false) →
        formatValue p a.value = strconv_Quote p a.value)
    ∧ ((a.value ≠ "" ∧ ∀ c ∈ a.value.data,
          c ≠ runeError ∧ unicode_IsSpace c = false ∧ p c = true) →
        formatValue p a.value = a.value) := by
  refine ⟨rfl, ⟨String.join (a.value.data.map (quoteRune p)), rfl⟩, ?_, ?_⟩
  · intro h
    have hc : needsQuotes p a.value = true ∨ a.value = "" := by
      rcases h with h | h
      · exact Or.inr h
      · exact Or.inl ((needsQuotes_iff p a.value).mpr h)
    unfold formatValue
    rw [if_pos hc]
  · rintro ⟨hne, hall⟩
    have hq : ¬ (needsQuotes p a.value = true ∨ a.value = "") := by
      rintro (h | h)
      · rcases (needsQuotes_iff p a.value).mp h with ⟨c, hc, hbad⟩
        rcases hall c hc with ⟨h1, h2, h3⟩
        rcases hbad with hb | hb | hb
        · exact h1 hb
        · rw [h2] at hb
          exact Bool.false_ne_true hb
        · rw [h3] at hb
          exact Bool.noConfusion hb
      · exact hne h
    unfold formatValue
    rw [if_neg hq]

/-- Witness for `value_quoting_rule`: the empty value is quoted, a plain
value is not. -/
theorem value_quoting_rule_witness :
    formatValue asciiIsPrint "" = strconv_Quote asciiIsPrint ""
    ∧ formatValue asciiIsPrint "ok" = "ok" :=
  ⟨(value_quoting_rule asciiIsPrint (Attr.mk "k" "")).2.2.1 (Or.inl rfl),
   (value_quoting_rule asciiIsPrint (Attr.mk "k" "ok")).2.2.2 (by decide)⟩

/-- **C9.** `Level.String` is total: every integer outside the four defined
levels renders as the explicit `"unknown"` label, and each defined level
renders as its (styled) label. -/
theorem level_string_total (l : Level) :
    (l ≠ LevelDebug → l ≠ LevelInfo → l ≠ LevelWarn → l ≠ LevelError →
        Level.String l = "unknown")
    ∧ Level.String LevelDebug = "DEBUG"
    ∧ Level.String LevelInfo = "INFO"
    ∧ Level.String LevelWarn = "WARN"
    ∧ Level.String LevelError = "ERROR" := by
  refine ⟨?_, rfl, rfl, rfl, rfl⟩
  intro h1 h2 h3 h4
  unfold Level.String
  rw [if_neg h1, if_neg h2, if_neg h3, if_neg h4]

/-- Witness for `level_string_total` at the undefined level value `1`. -/
theorem level_string_total_witness : Level.String 1 = "unknown" :=
  (level_string_total 1).1 (by decide) (by decide) (by decide) (by decide)
